import Mathlib

/-!
Shallow embedding of the polymer-simple-relayer-backend core
(DatabaseService, ChainListener, JobQueue, ProofService,
DestinationResolverService, ExecutorService) and proofs about it.

Modelling conventions:
* machine timestamps (ISO-8601 strings produced by `new Date().toISOString()`
  and parsed back with `new Date(s).getTime()`) are modelled as integer epoch
  milliseconds (`Int`); string order on ISO timestamps coincides with the
  numeric order used here;
* the SQLite jobs table is a list of rows plus the AUTOINCREMENT counter;
* `SELECT ... ORDER BY` is modelled with an explicit insertion sort;
* fallible code (JS `throw`) returns `Except String`.
-/

namespace Relayer

/-- The `JobStatus` union type from src/types (status column of the jobs table). -/
inductive JobStatus
  | pending
  | proof_requested
  | proof_ready
  | executing
  | completed
  | failed
deriving DecidableEq, Repr

/-- A row of the `jobs` table (DatabaseService.initializeDatabase). -/
structure Job where
  id : Nat
  unique_id : String
  source_chain : String
  source_tx_hash : String
  source_block_number : Nat
  dest_chain : String
  dest_address : String
  dest_method : String
  dest_method_signature : String
  event_data : String
  proof_data : Option String
  status : JobStatus
  proof_required : Bool
  dest_tx_hash : Option String
  retry_count : Nat
  error_message : Option String
  created_at : Int
  completed_at : Option Int
  last_retry_at : Option Int
  mapping_name : String
deriving DecidableEq, Repr

/-- The jobs table: rows plus the AUTOINCREMENT counter backing `lastInsertRowid`. -/
structure DB where
  rows : List Job
  nextId : Nat
deriving DecidableEq, Repr

/-- DatabaseService.createJob: INSERT a row, returning `lastInsertRowid`. -/
def createJob (db : DB) (j : Job) : Nat × DB :=
  (db.nextId, ⟨db.rows ++ [{ j with id := db.nextId }], db.nextId + 1⟩)

/-- DatabaseService.getJobByUniqueId: SELECT * FROM jobs WHERE unique_id = ?. -/
def getJobByUniqueId (rows : List Job) (uid : String) : Option Job :=
  rows.find? (fun j => j.unique_id == uid)

/-- Insertion step of the insertion sort modelling SQL ORDER BY. -/
def insertSorted (le : Job → Job → Bool) (j : Job) : List Job → List Job
  | [] => [j]
  | x :: xs => if le j x then j :: x :: xs else x :: insertSorted le j xs

/-- Insertion sort modelling SQL ORDER BY (ascending under `le`). -/
def orderBy (le : Job → Job → Bool) : List Job → List Job
  | [] => []
  | x :: xs => insertSorted le x (orderBy le xs)

/-- Ascending order on nullable timestamps; SQL sorts NULLs first. -/
def optIntLe : Option Int → Option Int → Bool
  | none, _ => true
  | some _, none => false
  | some a, some b => a ≤ b

/-- DatabaseService.getPendingJobs:
SELECT * FROM jobs WHERE status IN (pending, proof_requested, proof_ready)
ORDER BY created_at ASC. -/
def getPendingJobs (db : DB) : List Job :=
  orderBy (fun a b => a.created_at ≤ b.created_at)
    (db.rows.filter (fun j =>
      j.status == .pending || j.status == .proof_requested || j.status == .proof_ready))

/-- DatabaseService.getFailedJobs:
SELECT * FROM jobs WHERE status = failed AND retry_count < ? ORDER BY last_retry_at ASC. -/
def getFailedJobs (db : DB) (maxRetries : Nat) : List Job :=
  orderBy (fun a b => optIntLe a.last_retry_at b.last_retry_at)
    (db.rows.filter (fun j => j.status == .failed && j.retry_count < maxRetries))

/-- The optional fields DatabaseService.updateJobStatus callers pass as
`additionalData` (the spec's `patch`: proof_data, dest_tx_hash, error_message). -/
structure JobPatch where
  proof_data : Option String
  dest_tx_hash : Option String
  error_message : Option String
deriving DecidableEq, Repr

/-- DatabaseService.updateJobStatus applied to the addressed row: sets status and
last_retry_at on every call, copies the defined patch fields, and appends
completed_at = now exactly when the new status is completed. -/
def updateJobStatus (j : Job) (status : JobStatus) (patch : JobPatch) (now : Int) : Job :=
  { j with
    status := status
    last_retry_at := some now
    proof_data := match patch.proof_data with
      | some v => some v
      | none => j.proof_data
    dest_tx_hash := match patch.dest_tx_hash with
      | some v => some v
      | none => j.dest_tx_hash
    error_message := match patch.error_message with
      | some v => some v
      | none => j.error_message
    completed_at := if status = .completed then some now else j.completed_at }

/-- The no-op patch (callers that pass no `additionalData`). -/
def emptyPatch : JobPatch := ⟨none, none, none⟩

/-- ChainListener.pollForEvents, the cursor arithmetic: given the persisted
last-processed block, the head block and the confirmation depth, either skip
(`none`) or return the swept range (fromBlock, toBlock) with
toBlock = min(safeBlock, fromBlock + 100). -/
def pollForEventsRange (lastProcessedBlock currentBlock blockConfirmations : Int) :
    Option (Int × Int) :=
  let safeBlock := currentBlock - blockConfirmations
  if safeBlock ≤ lastProcessedBlock then none
  else some (lastProcessedBlock + 1, min safeBlock (lastProcessedBlock + 1 + 100))

/-- The decoded ethers log entry fields the Listener reads.  `index` is the
position within the filter results (`event.index`, possibly undefined). -/
structure EventLog where
  transactionHash : String
  blockNumber : Nat
  transactionIndex : Nat
  index : Option Nat
deriving DecidableEq, Repr

/-- ChainListener.processEvent, the jobId template literal:
`chainName-transactionHash-(event.index || 0)`. -/
def jobBaseId (chainName : String) (event : EventLog) : String :=
  chainName ++ "-" ++ event.transactionHash ++ "-" ++ toString (event.index.getD 0)

/-- Role of a contract deployment on a chain. -/
inductive DeploymentType
  | source
  | destination
  | both
deriving DecidableEq, Repr

/-- A contract deployment entry of the configuration. -/
structure ContractDeployment where
  address : String
  type : DeploymentType
deriving DecidableEq, Repr

/-- The destination half of an event mapping. -/
structure DestinationCall where
  contractName : String
  methodName : String
  methodSignature : String
deriving DecidableEq, Repr

/-- The event-mapping fields the Listener uses when creating jobs. -/
structure EventMapping where
  name : String
  destinationCall : DestinationCall
  proofRequired : Bool
  enabled : Bool
deriving DecidableEq, Repr

/-- ChainListener.getDestinationCallDetails: look the destination contract up in
the deployments table and demand role destination or both. -/
def getDestinationCallDetails
    (deployments : String → String → Option ContractDeployment)
    (mapping : EventMapping) (destChain : String) :
    Except String (String × String × String) :=
  match deployments mapping.destinationCall.contractName destChain with
  | none => .error "destination contract not configured for destination chain"
  | some d =>
    if d.type ≠ .destination ∧ d.type ≠ .both then
      .error "destination contract is not configured as a destination"
    else
      .ok (d.address, mapping.destinationCall.methodName, mapping.destinationCall.methodSignature)

/-- ChainListener.createJobForDestination: resolve the call details, build the
unique id `baseJobId-destChain`, skip when a row with that unique id exists,
otherwise insert a fresh pending job and enqueue it. -/
def createJobForDestination
    (deployments : String → String → Option ContractDeployment)
    (chainName : String) (db : DB) (baseJobId : String) (event : EventLog)
    (mapping : EventMapping) (destChain : String) (eventData : String) (now : Int) :
    Except String DB :=
  match getDestinationCallDetails deployments mapping destChain with
  | .error e => .error e
  | .ok (destAddress, destMethod, destMethodSignature) =>
    let uniqueId := baseJobId ++ "-" ++ destChain
    if (getJobByUniqueId db.rows uniqueId).isSome then
      .ok db
    else
      let job : Job :=
        { id := 0
          unique_id := uniqueId
          source_chain := chainName
          source_tx_hash := event.transactionHash
          source_block_number := event.blockNumber
          dest_chain := destChain
          dest_address := destAddress
          dest_method := destMethod
          dest_method_signature := destMethodSignature
          event_data := eventData
          proof_data := none
          status := .pending
          proof_required := mapping.proofRequired
          dest_tx_hash := none
          retry_count := 0
          error_message := none
          created_at := now
          completed_at := none
          last_retry_at := none
          mapping_name := mapping.name }
      .ok (createJob db job).2

/-- The per-destination loop of ChainListener.processEvent; a thrown error is
caught by the surrounding try, leaving the rows already inserted in place. -/
def createJobsLoop
    (deployments : String → String → Option ContractDeployment)
    (chainName : String) (baseJobId : String) (event : EventLog)
    (mapping : EventMapping) (eventData : String) (now : Int) :
    List String → DB → DB
  | [], db => db
  | destChain :: rest, db =>
    match createJobForDestination deployments chainName db baseJobId event mapping
        destChain eventData now with
    | .ok db2 => createJobsLoop deployments chainName baseJobId event mapping eventData now rest db2
    | .error _ => db

/-- ChainListener.processEvent over the store, with the destination chains the
resolver returned: skip if the base job id is already a stored unique id, else
create one job per destination chain. -/
def processEvent
    (deployments : String → String → Option ContractDeployment)
    (chainName : String) (db : DB) (event : EventLog) (mapping : EventMapping)
    (destinationChains : List String) (eventData : String) (now : Int) : DB :=
  let jobId := jobBaseId chainName event
  if (getJobByUniqueId db.rows jobId).isSome then db
  else createJobsLoop deployments chainName jobId event mapping eventData now destinationChains db

/-! ### JobQueue (src/queue/JobQueue.ts) -/

/-- JobQueue.maxRetries. -/
def jqMaxRetries : Nat := 3

/-- JobQueue.retryDelayMs. -/
def jqRetryDelayMs : Int := 5000

/-- JobQueue concurrency: processQueue splices up to 5 jobs per tick. -/
def jqConcurrentLimit : Nat := 5

/-- The three handlers JobQueue.registerProcessors installs. -/
inductive ProcessorKind
  | proofHandler
  | executeHandler
  | retryHandler
deriving DecidableEq, Repr

/-- JobQueue.registerProcessors: the processors map after construction.
Only pending, proof_ready and failed receive a handler. -/
def registeredProcessors : JobStatus → Option ProcessorKind
  | .pending => some .proofHandler
  | .proof_ready => some .executeHandler
  | .failed => some .retryHandler
  | _ => none

/-- What JobQueue.processJob does with one dequeued job before running it. -/
inductive DispatchOutcome
  | dispatched (p : ProcessorKind)
  | skippedNoProcessor
  | skippedNoId
deriving DecidableEq, Repr

/-- JobQueue.processJob, the dispatch step: a falsy id (0 models a missing row
id) is skipped, a status without a registered processor is logged and dropped,
otherwise the job goes to its handler. -/
def processJobDispatch (j : Job) : DispatchOutcome :=
  if j.id == 0 then .skippedNoId
  else
    match registeredProcessors j.status with
    | none => .skippedNoProcessor
    | some p => .dispatched p

/-- JobQueue.loadPendingJobs (run once in the constructor): pull
`getPendingJobs` from the store into the in-memory queue. -/
def loadPendingJobs (db : DB) : List Job :=
  getPendingJobs db

/-- JobQueue.processQueue, one tick over the in-memory queue: when the queue is
empty, pull the retryable failed jobs from the store and return without
processing; otherwise splice off up to 5 jobs to process.  Result:
(jobs dispatched this tick, queue afterwards). -/
def processQueue (queue : List Job) (db : DB) : List Job × List Job :=
  if queue.isEmpty then
    ([], queue ++ getFailedJobs db jqMaxRetries)
  else
    (queue.take jqConcurrentLimit, queue.drop jqConcurrentLimit)

/-- Result of JobQueue.processRetry on one failed job. -/
inductive RetryAction
  | requeueUnchanged (j : Job)
  | abandon
  | retry (j : Job) (newStatus : JobStatus)
deriving DecidableEq, Repr

/-- JobQueue.processRetry: re-queue unchanged while the 5 s delay since
last_retry_at is unsatisfied; give up once retry_count reached maxRetries;
otherwise increment the count and re-enter at pending (proof still missing) or
proof_ready. -/
def processRetry (j : Job) (now : Int) : RetryAction :=
  let timeSinceLastRetry : Int :=
    match j.last_retry_at with
    | some t => now - t
    | none => jqRetryDelayMs + 1
  if timeSinceLastRetry < jqRetryDelayMs then
    .requeueUnchanged j
  else if jqMaxRetries ≤ j.retry_count then
    .abandon
  else
    let newStatus : JobStatus :=
      if j.proof_required && j.proof_data.isNone then .pending else .proof_ready
    .retry { j with status := newStatus, retry_count := j.retry_count + 1 } newStatus

/-! ### ProofService (src/services/ProofService.ts) -/

/-- ProofService.maxPollingAttempts. -/
def maxPollingAttempts : Nat := 30

/-- ProofService.pollingInterval in milliseconds. -/
def pollingInterval : Nat := 500

/-- ProofService.initialWait in milliseconds. -/
def initialWait : Nat := 2000

/-- One polymer_queryProof response as seen by one polling attempt.  `invalid`
stands for the throwing cases before the status switch: transport failure, a
JSON-RPC error member, or a result that is not a status object. -/
inductive PollStatus
  | complete (proof : Option String)
  | pending
  | initialized
  | error
  | unknown (s : String)
  | invalid
deriving DecidableEq, Repr

/-- Outcome of ProofService.pollForProof. -/
inductive PollOutcome
  | success (proofHex : String)
  | failureAfterAttempts (msg : String)
  | timeout
deriving DecidableEq, Repr

/-- Value of one base64 alphabet character. -/
def b64Val (c : Char) : Option Nat :=
  if 'A' ≤ c ∧ c ≤ 'Z' then some (c.toNat - 65)
  else if 'a' ≤ c ∧ c ≤ 'z' then some (c.toNat - 97 + 26)
  else if '0' ≤ c ∧ c ≤ '9' then some (c.toNat - 48 + 52)
  else if c = '+' then some 62
  else if c = '/' then some 63
  else none

/-- Recombine 6-bit groups into bytes (Buffer.from(s, 'base64')). -/
def b64Group : List Nat → List Nat
  | a :: b :: c :: d :: rest =>
    (a * 4 + b / 16) :: ((b % 16) * 16 + c / 4) :: ((c % 4) * 64 + d) :: b64Group rest
  | [a, b, c] => [a * 4 + b / 16, (b % 16) * 16 + c / 4]
  | [a, b] => [a * 4 + b / 16]
  | _ => []

/-- Base64 decoding to a byte list. -/
def base64Decode (s : String) : List Nat :=
  b64Group (s.data.filterMap b64Val)

/-- One lower-case hex digit. -/
def hexDigit (n : Nat) : Char :=
  if n < 10 then Char.ofNat (48 + n) else Char.ofNat (87 + n)

/-- Buffer.toString('hex') with the 0x prefix the code prepends. -/
def bytesToHex (bs : List Nat) : String :=
  "0x" ++ String.join (bs.map (fun b => String.mk [hexDigit (b / 16), hexDigit (b % 16)]))

/-- The loop body of ProofService.pollForProof with `fuel` attempts remaining
(fuel = 1 is the final attempt).  A `complete` status with a falsy proof field
and an `error` status both throw inside the try block; the catch swallows the
throw and keeps polling unless this was the final attempt.  Pending-like
statuses continue; running out of attempts yields the polling timeout. -/
def pollLoop : List PollStatus → Nat → PollOutcome
  | _, 0 => .timeout
  | [], _ + 1 => .timeout
  | r :: rs, n + 1 =>
    match r with
    | .complete p =>
      if p.getD "" = "" then
        if n = 0 then .failureAfterAttempts "Proof completed but no proof data provided"
        else pollLoop rs n
      else .success (bytesToHex (base64Decode (p.getD "")))
    | .pending => pollLoop rs n
    | .initialized => pollLoop rs n
    | .unknown _ => pollLoop rs n
    | .error =>
      if n = 0 then .failureAfterAttempts "Proof generation failed"
      else pollLoop rs n
    | .invalid =>
      if n = 0 then .failureAfterAttempts "polling attempt failed"
      else pollLoop rs n

/-- ProofService.pollForProof on the sequence of per-attempt responses. -/
def pollForProof (responses : List PollStatus) : PollOutcome :=
  pollLoop responses maxPollingAttempts

/-! ### DestinationResolverService (src/services/DestinationResolver.ts) -/

/-- A destination resolver configuration entry. -/
structure DestinationResolver where
  type : String
  parameterName : Option String
  mapping : Option (List (String × String))
  destinations : Option (List String)
  customFunction : Option String
deriving DecidableEq, Repr

/-- DestinationResolverService.resolveStatic: demand a non-empty destinations
list, then filter out the source chain to avoid self-sends. -/
def resolveStatic (resolver : DestinationResolver) (sourceChain : String) :
    Except String (List String) :=
  match resolver.destinations with
  | none => .error "Static resolver missing destinations"
  | some ds =>
    if ds.isEmpty then .error "Static resolver missing destinations"
    else .ok (ds.filter (fun dest => dest != sourceChain))

/-! ### ExecutorService (src/services/ExecutorService.ts) -/

/-- One entry of a parsed method signature (parseMethodSignature output). -/
structure AbiInput where
  type : String
  name : String
deriving DecidableEq, Repr

/-- A JavaScript value as it appears among decoded event arguments. -/
inductive JSValue
  | num (n : Int)
  | str (s : String)
  | boolean (b : Bool)
deriving DecidableEq, Repr

/-- JS String.prototype.startsWith, evaluated structurally on character
lists so that concrete instances compute. -/
def strStartsWith (s pre : String) : Bool :=
  pre.data.isPrefixOf s.data

/-- ExecutorService.getDefaultValue: the type-based fallback value. -/
def getDefaultValue (type : String) : JSValue :=
  if strStartsWith type "uint" || strStartsWith type "int" then .num 0
  else if type = "address" then .str "0x0000000000000000000000000000000000000000"
  else if type = "bool" then .boolean false
  else if type = "bytes" || strStartsWith type "bytes" then .str "0x"
  else if type = "string" then .str ""
  else .str "0x"

/-- Value selection for one parameter inside
ExecutorService.encodeParametersFromEventData.  `args` is `eventData.args` as
an ordered key/value list (a JS object), `proofValue` is `proofData.proof`
when present and truthy.  The Bool reports whether the default-value warning
was emitted.  The fallback branch mirrors
`Object.values(eventArgs).find((value, index) => index < inputs.length)`:
inside the loop `inputs.length ≥ 1`, so the predicate accepts the first
element, and only an empty args object reaches the default value. -/
def encodeParamValue (i : AbiInput) (args : List (String × JSValue))
    (proofValue : Option JSValue) : Except String (JSValue × Bool) :=
  if i.name == "proof" && i.type == "bytes" then
    match proofValue with
    | some v => .ok (v, false)
    | none => .error "Proof data is required for proof parameter"
  else if i.name == "key" && i.type == "string" then
    match args.lookup i.name with
    | some v => .ok (v, false)
    | none => .error "Key not found in event data"
  else if i.name == "value" && i.type == "bytes" then
    match args.lookup i.name with
    | some v => .ok (v, false)
    | none => .error "Value not found in event data"
  else
    match args.lookup i.name with
    | some v => .ok (v, false)
    | none =>
      match args.head? with
      | some kv => .ok (kv.2, false)
      | none => .ok (getDefaultValue i.type, true)

/-- ExecutorService.encodeParametersFromEventData: select a value for every
parameter in order; a throw aborts the whole encoding.  Returns the selected
values and the names of the parameters that fell back to a default value with
a warning. -/
def encodeParametersFromEventData (inputs : List AbiInput)
    (args : List (String × JSValue)) (proofValue : Option JSValue) :
    Except String (List JSValue × List String) :=
  match inputs with
  | [] => .ok ([], [])
  | i :: rest =>
    match encodeParamValue i args proofValue with
    | .error e => .error e
    | .ok (v, warned) =>
      match encodeParametersFromEventData rest args proofValue with
      | .error e => .error e
      | .ok (vs, ws) => .ok (v :: vs, (if warned then [i.name] else []) ++ ws)

/-! ### Shared lemmas -/

/-- Membership is invariant under the insertion step of the ORDER BY model. -/
theorem mem_insertSorted (le : Job → Job → Bool) (j a : Job) (l : List Job) :
    a ∈ insertSorted le j l ↔ a = j ∨ a ∈ l := by
  induction l with
  | nil => simp [insertSorted]
  | cons x xs ih =>
    simp only [insertSorted]
    split
    · simp
    · simp [ih]
      tauto

/-- Membership is invariant under the ORDER BY model. -/
theorem mem_orderBy (le : Job → Job → Bool) (a : Job) (l : List Job) :
    a ∈ orderBy le l ↔ a ∈ l := by
  induction l with
  | nil => simp [orderBy]
  | cons x xs ih => simp [orderBy, mem_insertSorted, ih]

/-- Characterisation of a failed unique-id lookup. -/
theorem getJobByUniqueId_eq_none_iff (rows : List Job) (uid : String) :
    getJobByUniqueId rows uid = none ↔ ∀ j ∈ rows, j.unique_id ≠ uid := by
  simp [getJobByUniqueId, List.find?_eq_none]

/-! ### Concrete fixtures used by witnesses and counterexamples -/

/-- A deployments table where every contract is deployed with role both. -/
def depAll : String → String → Option ContractDeployment :=
  fun _ _ => some { address := "0xdest", type := .both }

/-- A concrete event mapping. -/
def mapping0 : EventMapping :=
  { name := "valueSetRelay"
    destinationCall :=
      { contractName := "StateSync"
        methodName := "setValue"
        methodSignature := "setValue(string key, bytes value, bytes proof)" }
    proofRequired := true
    enabled := true }

/-- A concrete decoded log at filter position 2. -/
def ev2 : EventLog :=
  { transactionHash := "0xaa", blockNumber := 1000, transactionIndex := 0, index := some 2 }

/-- The empty jobs table. -/
def dbEmpty : DB := ⟨[], 1⟩

/-- A stored job stuck in status proof_requested (as left behind by a crash
between requesting and obtaining a proof). -/
def jobPR0 : Job :=
  { id := 7
    unique_id := "A-0xbb-0-B"
    source_chain := "A"
    source_tx_hash := "0xbb"
    source_block_number := 900
    dest_chain := "B"
    dest_address := "0xdest"
    dest_method := "setValue"
    dest_method_signature := "setValue(string key, bytes value, bytes proof)"
    event_data := "{}"
    proof_data := none
    status := .proof_requested
    proof_required := true
    dest_tx_hash := none
    retry_count := 0
    error_message := none
    created_at := 100
    completed_at := none
    last_retry_at := some 100
    mapping_name := "valueSetRelay" }

/-- A store holding only `jobPR0`. -/
def dbPR : DB := ⟨[jobPR0], 8⟩

/-! ### Claim theorems -/

/-- Claim C3 (code_bug).  The Listener sweep at last_processed = 100,
head = 201, confirmations = 0 queries the range [101, 201]: 101 blocks in a
single tick.  The code computes toBlock = min(safeBlock, fromBlock + 100)
although its own comment says at most 100 blocks are processed at once; the
claimed cap min(safe, from + 99) would have stopped at block 200. -/
theorem pollRange_101_blocks :
    pollForEventsRange 100 201 0 = some (101, 201) ∧
    ¬ (201 - 101 + 1 ≤ (100 : Int)) ∧
    min (201 : Int) (100 + 1 + 99) = 200 := by
  refine ⟨rfl, by decide, by decide⟩

/-- Claim C4 (code_bug).  registerProcessors installs handlers only for
pending, proof_ready and failed; a job in status proof_requested has no
processor, so processJob drops it with a warning — even though loadPendingJobs
deliberately pulls proof_requested rows from the store for resumption.  The
spec routes pending and proof_requested to the proof handler. -/
theorem proof_requested_has_no_processor :
    registeredProcessors .proof_requested = none ∧
    processJobDispatch jobPR0 = .skippedNoProcessor ∧
    jobPR0 ∈ loadPendingJobs dbPR ∧
    registeredProcessors .pending = some .proofHandler ∧
    registeredProcessors .proof_ready = some .executeHandler ∧
    registeredProcessors .failed = some .retryHandler := by
  refine ⟨rfl, rfl, ?_, rfl, rfl, rfl⟩
  decide

/-- Claim C2, counterexample.  Processing the event of `ev2` on chain optimism
towards chain base stores unique_id "optimism-0xaa-2-base": the components are
joined by hyphens, not by the colons the claim states. -/
theorem uniqueId_hyphen_counterexample :
    (createJobForDestination depAll "optimism" dbEmpty (jobBaseId "optimism" ev2) ev2
        mapping0 "base" "{}" 0).map (fun db => db.rows.map (fun j => j.unique_id)) =
      .ok ["optimism-0xaa-2-base"] ∧
    ("optimism-0xaa-2-base" : String) ≠
      "optimism" ++ ":" ++ "0xaa" ++ ":" ++ "2" ++ ":" ++ "base" := by
  exact ⟨rfl, by decide⟩

/-- Case analysis on a successful createJobForDestination call: either the
unique id was already stored and the table is untouched, or a single fresh row
carrying the unique id `baseJobId-destChain` was appended. -/
theorem createJobForDestination_ok_elim
    (dep : String → String → Option ContractDeployment)
    (chainName : String) (db : DB) (baseJobId : String) (event : EventLog)
    (mapping : EventMapping) (destChain eventData : String) (now : Int) (db2 : DB)
    (h : createJobForDestination dep chainName db baseJobId event mapping destChain
        eventData now = .ok db2) :
    (db2 = db ∧ (getJobByUniqueId db.rows (baseJobId ++ "-" ++ destChain)).isSome = true) ∨
    (getJobByUniqueId db.rows (baseJobId ++ "-" ++ destChain) = none ∧
      ∃ jnew : Job, jnew.unique_id = baseJobId ++ "-" ++ destChain ∧
        db2.rows = db.rows ++ [jnew] ∧ db2.nextId = db.nextId + 1) := by
  cases hd : getDestinationCallDetails dep mapping destChain with
  | error e => simp [createJobForDestination, hd] at h
  | ok d =>
    obtain ⟨addr, m, sig⟩ := d
    simp only [createJobForDestination, hd] at h
    by_cases hg : (getJobByUniqueId db.rows (baseJobId ++ "-" ++ destChain)).isSome
    · left
      simp only [hg, if_true, Except.ok.injEq] at h
      exact ⟨h.symm, hg⟩
    · right
      refine ⟨Option.not_isSome_iff_eq_none.mp hg, ?_⟩
      rw [Bool.not_eq_true] at hg
      simp only [hg, Bool.false_eq_true, if_false, Except.ok.injEq, createJob] at h
      subst h
      exact ⟨_, rfl, rfl, rfl⟩

/-- A successful createJobForDestination call preserves distinctness of the
stored unique ids. -/
theorem createJobForDestination_ok_nodup
    (dep : String → String → Option ContractDeployment)
    (chainName : String) (db : DB) (baseJobId : String) (event : EventLog)
    (mapping : EventMapping) (destChain eventData : String) (now : Int) (db2 : DB)
    (hnodup : (db.rows.map (fun j => j.unique_id)).Nodup)
    (h : createJobForDestination dep chainName db baseJobId event mapping destChain
        eventData now = .ok db2) :
    (db2.rows.map (fun j => j.unique_id)).Nodup := by
  rcases createJobForDestination_ok_elim dep chainName db baseJobId event mapping destChain
      eventData now db2 h with ⟨rfl, _⟩ | ⟨hg, jnew, hjuid, hrows, _⟩
  · exact hnodup
  · rw [hrows, List.map_append]
    refine List.Nodup.append hnodup (List.nodup_singleton _) ?_
    intro x hx hx2
    simp only [List.map_cons, List.map_nil, List.mem_singleton] at hx2
    subst hx2
    obtain ⟨j, hjm, hje⟩ := List.mem_map.mp hx
    exact (getJobByUniqueId_eq_none_iff db.rows _ |>.mp hg j hjm) (hje.trans hjuid)

/-- The per-destination creation loop of processEvent preserves distinctness of
the stored unique ids. -/
theorem createJobsLoop_nodup
    (dep : String → String → Option ContractDeployment)
    (chainName : String) (baseJobId : String) (event : EventLog)
    (mapping : EventMapping) (eventData : String) (now : Int) :
    ∀ (dests : List String) (db : DB),
      (db.rows.map (fun j => j.unique_id)).Nodup →
      (((createJobsLoop dep chainName baseJobId event mapping eventData now dests db).rows.map
          (fun j => j.unique_id)).Nodup) := by
  intro dests
  induction dests with
  | nil => intro db h; simpa [createJobsLoop]
  | cons dc rest ih =>
    intro db h
    simp only [createJobsLoop]
    cases hc : createJobForDestination dep chainName db baseJobId event mapping dc
        eventData now with
    | ok db2 =>
      exact ih db2 (createJobForDestination_ok_nodup dep chainName db baseJobId event mapping
        dc eventData now db2 h hc)
    | error e => simpa using h

/-- Claim C1.  A successful createJobForDestination call keeps every stored
unique_id held by at most one row, a call whose unique id is already stored is
a no-op (the returned table is the input table, so no row and no status
changes), and a whole processEvent pass preserves the uniqueness invariant. -/
theorem createJobForDestination_unique
    (dep : String → String → Option ContractDeployment)
    (chainName : String) (db : DB) (baseJobId : String) (event : EventLog)
    (mapping : EventMapping) (destChain eventData : String) (now : Int)
    (dests : List String) (db2 : DB)
    (hnodup : (db.rows.map (fun j => j.unique_id)).Nodup)
    (h : createJobForDestination dep chainName db baseJobId event mapping destChain
        eventData now = .ok db2) :
    ((db2.rows.map (fun j => j.unique_id)).Nodup) ∧
    ((getJobByUniqueId db.rows (baseJobId ++ "-" ++ destChain)).isSome → db2 = db) ∧
    (((processEvent dep chainName db event mapping dests eventData now).rows.map
        (fun j => j.unique_id)).Nodup) := by
  refine ⟨createJobForDestination_ok_nodup dep chainName db baseJobId event mapping destChain
      eventData now db2 hnodup h, ?_, ?_⟩
  · intro hs
    rcases createJobForDestination_ok_elim dep chainName db baseJobId event mapping destChain
        eventData now db2 h with ⟨rfl, _⟩ | ⟨hg, _⟩
    · rfl
    · rw [hg] at hs; simp at hs
  · simp only [processEvent]
    split
    · exact hnodup
    · exact createJobsLoop_nodup dep chainName (jobBaseId chainName event) event mapping
        eventData now dests db hnodup

/-- The row inserted by processing `ev2` on chain A towards chain B at time 5. -/
def jobIns : Job :=
  { id := 1
    unique_id := "A-0xaa-2-B"
    source_chain := "A"
    source_tx_hash := "0xaa"
    source_block_number := 1000
    dest_chain := "B"
    dest_address := "0xdest"
    dest_method := "setValue"
    dest_method_signature := "setValue(string key, bytes value, bytes proof)"
    event_data := "{}"
    proof_data := none
    status := .pending
    proof_required := true
    dest_tx_hash := none
    retry_count := 0
    error_message := none
    created_at := 5
    completed_at := none
    last_retry_at := none
    mapping_name := "valueSetRelay" }

/-- The table after that insertion. -/
def dbIns : DB := ⟨[jobIns], 2⟩

/-- Witness for C1 at a concrete insertion into the empty table. -/
theorem createJobForDestination_unique_witness :
    ((dbIns.rows.map (fun j => j.unique_id)).Nodup) ∧
    (((processEvent depAll "A" dbEmpty ev2 mapping0 ["B"] "{}" 5).rows.map
        (fun j => j.unique_id)).Nodup) := by
  have h := createJobForDestination_unique depAll "A" dbEmpty "A-0xaa-2" ev2 mapping0 "B"
    "{}" 5 ["B"] dbIns (by decide) rfl
  exact ⟨h.1, h.2.2⟩

/-- Claim C2, amended: the unique_id of every job the Listener creates is the
four components source_chain, tx hash, filter event index and dest_chain
joined by "-" (hyphens, not the colons of the spec). -/
theorem created_job_uniqueId_shape
    (dep : String → String → Option ContractDeployment)
    (chainName : String) (db : DB) (event : EventLog) (mapping : EventMapping)
    (destChain eventData : String) (now : Int) (d : String × String × String)
    (hd : getDestinationCallDetails dep mapping destChain = .ok d)
    (hnew : getJobByUniqueId db.rows (jobBaseId chainName event ++ "-" ++ destChain) = none) :
    ∃ j : Job,
      createJobForDestination dep chainName db (jobBaseId chainName event) event mapping
          destChain eventData now = .ok ⟨db.rows ++ [j], db.nextId + 1⟩ ∧
      j.unique_id = chainName ++ "-" ++ event.transactionHash ++ "-" ++
        toString (event.index.getD 0) ++ "-" ++ destChain := by
  obtain ⟨addr, m, sig⟩ := d
  simp only [createJobForDestination, hd, hnew, Option.isSome_none, Bool.false_eq_true,
    if_false, createJob]
  refine ⟨_, rfl, ?_⟩
  simp [jobBaseId, String.append_assoc]

/-- Witness for the amended C2 at the concrete event `ev2`. -/
theorem created_job_uniqueId_shape_witness :
    ∃ j : Job,
      createJobForDestination depAll "optimism" dbEmpty (jobBaseId "optimism" ev2) ev2
          mapping0 "base" "{}" 0 = .ok ⟨dbEmpty.rows ++ [j], dbEmpty.nextId + 1⟩ ∧
      j.unique_id = "optimism" ++ "-" ++ ev2.transactionHash ++ "-" ++
        toString (ev2.index.getD 0) ++ "-" ++ "base" :=
  created_job_uniqueId_shape depAll "optimism" dbEmpty ev2 mapping0 "base" "{}" 0
    ("0xdest", "setValue", "setValue(string key, bytes value, bytes proof)") rfl rfl

/-- Claim C9.  A static resolver with a non-empty destinations list returns the
configured destinations with the source chain filtered out, order preserved
(the result is a sublist holding exactly the non-source entries); a resolver
whose only destination is the source chain returns the empty list; and
processing an event whose resolved destination list is empty leaves the job
store untouched. -/
theorem resolveStatic_spec
    (r : DestinationResolver) (ds : List String) (sourceChain : String)
    (hds : r.destinations = some ds) (hne : ds ≠ []) :
    resolveStatic r sourceChain = .ok (ds.filter (fun dest => dest != sourceChain)) ∧
    (∀ x, x ∈ ds.filter (fun dest => dest != sourceChain) ↔ x ∈ ds ∧ x ≠ sourceChain) ∧
    (ds.filter (fun dest => dest != sourceChain)).Sublist ds ∧
    (ds = [sourceChain] → resolveStatic r sourceChain = .ok []) ∧
    (∀ (dep : String → String → Option ContractDeployment) (chainName : String) (db : DB)
      (event : EventLog) (mapping : EventMapping) (eventData : String) (now : Int),
      processEvent dep chainName db event mapping [] eventData now = db) := by
  refine ⟨?_, ?_, List.filter_sublist _, ?_, ?_⟩
  · cases ds with
    | nil => exact absurd rfl hne
    | cons x xs => simp [resolveStatic, hds]
  · intro x
    simp [List.mem_filter]
  · rintro rfl
    simp [resolveStatic, hds]
  · intro dep chainName db event mapping eventData now
    simp only [processEvent]
    split
    · rfl
    · rfl

/-- A static resolver with destinations A and B. -/
def staticAB : DestinationResolver :=
  { type := "static"
    parameterName := none
    mapping := none
    destinations := some ["A", "B"]
    customFunction := none }

/-- Witness for C9: resolving from source chain A keeps only B. -/
theorem resolveStatic_spec_witness :
    resolveStatic staticAB "A" = .ok ["B"] ∧
    processEvent depAll "A" dbPR ev2 mapping0 [] "{}" 5 = dbPR := by
  have h := resolveStatic_spec staticAB ["A", "B"] "A" rfl (by decide)
  refine ⟨?_, h.2.2.2.2 depAll "A" dbPR ev2 mapping0 "{}" 5⟩
  have h1 := h.1
  simpa using h1

/-- A stored pending job awaiting its proof. -/
def jobPending1 : Job :=
  { id := 2
    unique_id := "A-0xcc-0-B"
    source_chain := "A"
    source_tx_hash := "0xcc"
    source_block_number := 910
    dest_chain := "B"
    dest_address := "0xdest"
    dest_method := "setValue"
    dest_method_signature := "setValue(string key, bytes value, bytes proof)"
    event_data := "{}"
    proof_data := none
    status := .pending
    proof_required := true
    dest_tx_hash := none
    retry_count := 0
    error_message := none
    created_at := 10
    completed_at := none
    last_retry_at := none
    mapping_name := "valueSetRelay" }

/-- A stored failed job with retry budget left. -/
def jobFailed1 : Job :=
  { id := 3
    unique_id := "A-0xdd-0-B"
    source_chain := "A"
    source_tx_hash := "0xdd"
    source_block_number := 920
    dest_chain := "B"
    dest_address := "0xdest"
    dest_method := "setValue"
    dest_method_signature := "setValue(string key, bytes value, bytes proof)"
    event_data := "{}"
    proof_data := none
    status := .failed
    proof_required := true
    dest_tx_hash := none
    retry_count := 1
    error_message := some "revert"
    created_at := 20
    completed_at := none
    last_retry_at := some 30
    mapping_name := "valueSetRelay" }

/-- A store holding one pending and one retryable failed job. -/
def dbQ : DB := ⟨[jobPending1, jobFailed1], 4⟩

/-- Claim C5, counterexample.  On a tick with an empty work list over a store
holding one pending job and one retryable failed job, processQueue enqueues
only the failed job: the pending job, although returned by find_pending, is
not pulled (find_pending is read once at construction, not on ticks). -/
theorem processQueue_pull_counterexample :
    (processQueue [] dbQ).2 = [jobFailed1] ∧
    jobPending1 ∈ getPendingJobs dbQ ∧
    jobPending1 ∉ (processQueue [] dbQ).2 := by
  refine ⟨rfl, by decide, by decide⟩

/-- Claim C5, amended: on a tick with an empty in-memory work list the Queue
pulls exactly find_retryable (status failed with retry_count < MAX_RETRIES)
from the Job Store and dispatches nothing; find_pending (status in pending,
proof_requested, proof_ready) is pulled only once, by loadPendingJobs at
construction. -/
theorem processQueue_pull_spec (queue : List Job) (db : DB) (hq : queue = []) :
    (processQueue queue db).1 = [] ∧
    (∀ j, j ∈ (processQueue queue db).2 ↔
      (j ∈ db.rows ∧ j.status = .failed ∧ j.retry_count < jqMaxRetries)) ∧
    (∀ j, j ∈ loadPendingJobs db ↔
      (j ∈ db.rows ∧
        (j.status = .pending ∨ j.status = .proof_requested ∨ j.status = .proof_ready))) := by
  subst hq
  refine ⟨rfl, ?_, ?_⟩
  · intro j
    simp [processQueue, getFailedJobs, mem_orderBy, List.mem_filter, and_assoc]
  · intro j
    simp [loadPendingJobs, getPendingJobs, mem_orderBy, List.mem_filter, or_assoc]

/-- Witness for the amended C5 over the concrete store `dbQ`. -/
theorem processQueue_pull_spec_witness :
    jobFailed1 ∈ (processQueue [] dbQ).2 ∧ jobPending1 ∈ loadPendingJobs dbQ := by
  have h := processQueue_pull_spec [] dbQ rfl
  exact ⟨(h.2.1 jobFailed1).mpr (by decide), (h.2.2 jobPending1).mpr (by decide)⟩

/-- Inversion of a retry decision: re-entry happens only with budget left and
increments the count by exactly one. -/
theorem processRetry_retry_inv (j : Job) (now : Int) (j2 : Job) (s : JobStatus)
    (h : processRetry j now = .retry j2 s) :
    j2.retry_count = j.retry_count + 1 ∧ j.retry_count < jqMaxRetries := by
  simp only [processRetry] at h
  split at h
  · exact absurd h (by simp)
  · split at h
    · exact absurd h (by simp)
    · rename_i h2
      simp only [RetryAction.retry.injEq] at h
      refine ⟨?_, by simp only [jqMaxRetries] at h2 ⊢; omega⟩
      rw [← h.1]

/-- Claim C7.  A failed job re-enters processing only once 5 seconds have
elapsed since last_retry_at (otherwise processRetry re-queues it unchanged);
with the delay satisfied and retry_count at MAX_RETRIES the job is abandoned
and in particular never re-entered; a re-entered job carries retry_count + 1,
which stays at most MAX_RETRIES = 3. -/
theorem processRetry_spec (j : Job) (now t : Int) :
    (j.last_retry_at = some t → now - t < jqRetryDelayMs →
      processRetry j now = .requeueUnchanged j) ∧
    (jqMaxRetries ≤ j.retry_count → ∀ j2 s, processRetry j now ≠ .retry j2 s) ∧
    (j.last_retry_at = some t → jqRetryDelayMs ≤ now - t → jqMaxRetries ≤ j.retry_count →
      processRetry j now = .abandon) ∧
    (∀ j2 s, processRetry j now = .retry j2 s →
      j2.retry_count = j.retry_count + 1 ∧ j.retry_count < jqMaxRetries) ∧
    (∀ j2 s, j.retry_count ≤ jqMaxRetries → processRetry j now = .retry j2 s →
      j2.retry_count ≤ jqMaxRetries) := by
  refine ⟨?_, ?_, ?_, fun j2 s h => processRetry_retry_inv j now j2 s h, ?_⟩
  · intro hl hd
    simp only [processRetry, hl]
    rw [if_pos hd]
  · intro hmax j2 s hcontra
    have hi := processRetry_retry_inv j now j2 s hcontra
    simp only [jqMaxRetries] at hmax hi
    omega
  · intro hl hd hmax
    simp only [processRetry, hl]
    rw [if_neg (by omega), if_pos hmax]
  · intro j2 s _ h
    have hi := processRetry_retry_inv j now j2 s h
    omega

/-- Witness for C7: the concrete failed job re-queued inside the delay window,
abandoned at the budget, and re-entered with an incremented count. -/
theorem processRetry_spec_witness :
    processRetry jobFailed1 31 = .requeueUnchanged jobFailed1 ∧
    (∀ j2 s, processRetry { jobFailed1 with retry_count := 3 } 9000 ≠ .retry j2 s) ∧
    processRetry { jobFailed1 with retry_count := 3 } 9000 = .abandon := by
  have h1 := processRetry_spec jobFailed1 31 30
  have h2 := processRetry_spec { jobFailed1 with retry_count := 3 } 9000 30
  exact ⟨h1.1 rfl (by decide), h2.2.1 (by decide), h2.2.2.1 rfl (by decide) (by decide)⟩

/-- Claim C10.  Every updateJobStatus call sets last_retry_at to now and the
status to the new status; completed_at is written (to now) exactly when the new
status is completed, so a job whose completed_at was previously unset has it
set afterwards iff the new status is completed; patch fields left undefined and
every field outside status, last_retry_at, completed_at and the patch are
unchanged. -/
theorem updateJobStatus_spec (j : Job) (st : JobStatus) (p : JobPatch) (now : Int) :
    (updateJobStatus j st p now).last_retry_at = some now ∧
    (updateJobStatus j st p now).status = st ∧
    (updateJobStatus j st p now).completed_at =
      (if st = .completed then some now else j.completed_at) ∧
    (j.completed_at = none →
      ((updateJobStatus j st p now).completed_at ≠ none ↔ st = .completed)) ∧
    (p.proof_data = none → (updateJobStatus j st p now).proof_data = j.proof_data) ∧
    (p.dest_tx_hash = none → (updateJobStatus j st p now).dest_tx_hash = j.dest_tx_hash) ∧
    (p.error_message = none → (updateJobStatus j st p now).error_message = j.error_message) ∧
    (updateJobStatus j st p now).id = j.id ∧
    (updateJobStatus j st p now).unique_id = j.unique_id ∧
    (updateJobStatus j st p now).source_chain = j.source_chain ∧
    (updateJobStatus j st p now).source_tx_hash = j.source_tx_hash ∧
    (updateJobStatus j st p now).source_block_number = j.source_block_number ∧
    (updateJobStatus j st p now).dest_chain = j.dest_chain ∧
    (updateJobStatus j st p now).dest_address = j.dest_address ∧
    (updateJobStatus j st p now).dest_method = j.dest_method ∧
    (updateJobStatus j st p now).dest_method_signature = j.dest_method_signature ∧
    (updateJobStatus j st p now).event_data = j.event_data ∧
    (updateJobStatus j st p now).proof_required = j.proof_required ∧
    (updateJobStatus j st p now).retry_count = j.retry_count ∧
    (updateJobStatus j st p now).created_at = j.created_at ∧
    (updateJobStatus j st p now).mapping_name = j.mapping_name := by
  refine ⟨rfl, rfl, rfl, ?_, ?_, ?_, ?_, rfl, rfl, rfl, rfl, rfl, rfl, rfl, rfl, rfl, rfl,
    rfl, rfl, rfl, rfl⟩
  · intro h0
    by_cases hc : st = .completed <;> simp [updateJobStatus, hc, h0]
  · intro hp
    simp [updateJobStatus, hp]
  · intro hp
    simp [updateJobStatus, hp]
  · intro hp
    simp [updateJobStatus, hp]

/-- Witness for C10 at the concrete job `jobPR0` moved to completed. -/
theorem updateJobStatus_spec_witness :
    (updateJobStatus jobPR0 .completed emptyPatch 42).last_retry_at = some 42 ∧
    (updateJobStatus jobPR0 .completed emptyPatch 42).completed_at = some 42 ∧
    (updateJobStatus jobPR0 .completed emptyPatch 42).proof_data = jobPR0.proof_data ∧
    (updateJobStatus jobPR0 .failed emptyPatch 43).completed_at = jobPR0.completed_at := by
  have h := updateJobStatus_spec jobPR0 .completed emptyPatch 42
  have h2 := updateJobStatus_spec jobPR0 .failed emptyPatch 43
  refine ⟨h.1, ?_, h.2.2.2.2.1 rfl, ?_⟩
  · have h3 := h.2.2.1
    simpa using h3
  · have h4 := h2.2.2.1
    simpa using h4

/-- Claim C6, counterexample.  An attempt that answers status error does not
terminate polling: the throw is swallowed by the per-attempt catch, the next
attempt is made, and a later complete answer ("3q0=" is base64 for the bytes
de ad) still succeeds, where the claim demands an immediate
ProofGenerationFailed. -/
theorem pollForProof_error_counterexample :
    pollForProof [.error, .complete (some "3q0=")] = .success "0xdead" := by
  rfl

/-- Claim C6, amended: after the 2 s initial wait at most 30 attempts run at
500 ms intervals; a status error raises a proof-generation failure that the
per-attempt catch swallows, so polling continues and the failure propagates
only from the final attempt; a complete status with a non-empty proof field
returns its base64 decoding (hex-encoded with 0x); exhausting all attempts on
pending-like statuses yields the polling timeout. -/
theorem pollForProof_spec :
    maxPollingAttempts = 30 ∧ pollingInterval = 500 ∧ initialWait = 2000 ∧
    (∀ (rs : List PollStatus) (n : Nat), n ≠ 0 →
      pollLoop (.error :: rs) (n + 1) = pollLoop rs n) ∧
    (∀ rs : List PollStatus,
      pollLoop (.error :: rs) 1 = .failureAfterAttempts "Proof generation failed") ∧
    (∀ (p : String) (rs : List PollStatus) (n : Nat), p ≠ "" →
      pollLoop (.complete (some p) :: rs) (n + 1) =
        .success (bytesToHex (base64Decode p))) ∧
    (∀ (rs : List PollStatus) (n : Nat), (∀ r ∈ rs, r = .pending) →
      pollLoop rs n = .timeout) := by
  refine ⟨rfl, rfl, rfl, ?_, fun rs => rfl, ?_, ?_⟩
  · intro rs n hn
    simp only [pollLoop]
    rw [if_neg hn]
  · intro p rs n hp
    simp only [pollLoop, Option.getD_some]
    rw [if_neg hp]
  · intro rs
    induction rs with
    | nil =>
      intro n _
      cases n <;> rfl
    | cons r rest ih =>
      intro n hr
      have hr0 : r = .pending := hr r (by simp)
      subst hr0
      cases n with
      | zero => rfl
      | succ m =>
        simp only [pollLoop]
        exact ih m (fun x hx => hr x (by simp [hx]))

/-- Witness for the amended C6 at concrete response sequences. -/
theorem pollForProof_spec_witness :
    pollLoop [.error, .pending] 2 = pollLoop [.pending] 1 ∧
    pollLoop (List.replicate 30 PollStatus.pending) 30 = .timeout ∧
    pollLoop [.complete (some "3q0=")] 5 = .success (bytesToHex (base64Decode "3q0=")) := by
  have h := pollForProof_spec
  refine ⟨h.2.2.2.1 [.pending] 1 (by decide), ?_, h.2.2.2.2.2.1 "3q0=" [] 4 (by decide)⟩
  refine h.2.2.2.2.2.2 _ 30 ?_
  intro r hr
  exact List.eq_of_mem_replicate hr

/-- Claim C8, counterexample.  A parameter named amount of type uint256 that is
absent from the event args is bound to the first event-arg value (num 7 here,
with no warning), not to the type-based zero value; and an absent parameter
named key of type string raises an error instead of falling back. -/
theorem encodeParameters_fallback_counterexample :
    encodeParametersFromEventData [⟨"uint256", "amount"⟩] [("foo", .num 7)] none =
      .ok ([.num 7], []) ∧
    JSValue.num 7 ≠ getDefaultValue "uint256" ∧
    encodeParametersFromEventData [⟨"string", "key"⟩] [] none =
      .error "Key not found in event data" := by
  refine ⟨rfl, by decide, rfl⟩

/-- Claim C8, amended: for a parameter outside the special cases proof:bytes,
key:string and value:bytes whose name is absent from event_data.args, the
selected value is the first value of event_data.args when args is non-empty
(without a warning); only when args is empty does the encoder take the
type-based zero value (0 for integer types, the zero address, empty bytes,
empty string, false for bool) and record the warning. -/
theorem encodeParameters_fallback_spec
    (t n : String) (rest : List AbiInput) (args : List (String × JSValue))
    (proofValue : Option JSValue)
    (h1 : ¬(n = "proof" ∧ t = "bytes"))
    (h2 : ¬(n = "key" ∧ t = "string"))
    (h3 : ¬(n = "value" ∧ t = "bytes"))
    (habs : args.lookup n = none) :
    (args = [] →
      encodeParametersFromEventData (⟨t, n⟩ :: rest) args proofValue =
        match encodeParametersFromEventData rest args proofValue with
        | .ok (vs, ws) => .ok (getDefaultValue t :: vs, n :: ws)
        | .error e => .error e) ∧
    (∀ (k : String) (v : JSValue) (args2 : List (String × JSValue)),
      args = (k, v) :: args2 →
      encodeParametersFromEventData (⟨t, n⟩ :: rest) args proofValue =
        match encodeParametersFromEventData rest args proofValue with
        | .ok (vs, ws) => .ok (v :: vs, ws)
        | .error e => .error e) ∧
    getDefaultValue "uint256" = .num 0 ∧
    getDefaultValue "int64" = .num 0 ∧
    getDefaultValue "address" = .str "0x0000000000000000000000000000000000000000" ∧
    getDefaultValue "bool" = .boolean false ∧
    getDefaultValue "bytes" = .str "0x" ∧
    getDefaultValue "bytes32" = .str "0x" ∧
    getDefaultValue "string" = .str "" := by
  have e1 : (n == "proof" && t == "bytes") = false := by
    by_contra hb
    rw [Bool.not_eq_false, Bool.and_eq_true, beq_iff_eq, beq_iff_eq] at hb
    exact h1 hb
  have e2 : (n == "key" && t == "string") = false := by
    by_contra hb
    rw [Bool.not_eq_false, Bool.and_eq_true, beq_iff_eq, beq_iff_eq] at hb
    exact h2 hb
  have e3 : (n == "value" && t == "bytes") = false := by
    by_contra hb
    rw [Bool.not_eq_false, Bool.and_eq_true, beq_iff_eq, beq_iff_eq] at hb
    exact h3 hb
  refine ⟨?_, ?_, by decide, by decide, by decide, by decide, by decide, by decide, by decide⟩
  · rintro rfl
    simp only [encodeParametersFromEventData, encodeParamValue, e1, e2, e3,
      Bool.false_eq_true, if_false, List.lookup_nil, List.head?_nil, if_true]
    cases hrest : encodeParametersFromEventData rest [] proofValue with
    | error e => rfl
    | ok pr =>
      obtain ⟨vs, ws⟩ := pr
      rfl
  · rintro k v args2 rfl
    simp only [encodeParametersFromEventData, encodeParamValue, e1, e2, e3,
      Bool.false_eq_true, if_false, habs, List.head?_cons]
    cases hrest : encodeParametersFromEventData rest ((k, v) :: args2) proofValue with
    | error e => rfl
    | ok pr =>
      obtain ⟨vs, ws⟩ := pr
      rfl

/-- Witness for the amended C8 at a concrete absent parameter. -/
theorem encodeParameters_fallback_spec_witness :
    encodeParametersFromEventData [⟨"uint256", "amount"⟩] [] none =
      .ok ([getDefaultValue "uint256"], ["amount"]) ∧
    encodeParametersFromEventData [⟨"address", "sender"⟩] [("foo", .num 7)] none =
      .ok ([.num 7], []) := by
  have h := encodeParameters_fallback_spec "uint256" "amount" [] [] none
    (by decide) (by decide) (by decide) rfl
  have h2 := encodeParameters_fallback_spec "address" "sender" [] [("foo", .num 7)] none
    (by decide) (by decide) (by decide) rfl
  constructor
  · have hx := h.1 rfl
    simpa using hx
  · have hy := h2.2.1 "foo" (.num 7) [] rfl
    simpa using hy

end Relayer
